import Mathlib

/-!
Verification development for the Nepal map visualizer (src/maincopy.py).

The definitions below are a shallow embedding of the data-to-geometry
join-and-render pipeline of the source file: CSV upload registration
(lines 74-94), the fuzzy location matcher built on the external
fuzzy-matching library (lines 202-215), the inner join of uploaded rows
against official district names (line 216), numeric classification and
color-ramp normalization (lines 222-233), the per-layer warning on an
empty join (lines 218-220), and the hover-text composition pass
(lines 259-291).

Library collaborators that are not part of the repository (pandas
merging and numeric parsing, numpy interp, the fuzzy string scorer,
python string formatting) are modelled by executable Lean functions
whose doc comments name the library behavior they stand for.
-/

/-! ## Generic string and number helpers -/

/-- Models python str.lower for the column-header comparison on
line 79 of the source: lowercase each character of the string. -/
def lowerStr (s : String) : String :=
  String.mk (s.toList.map Char.toLower)

/-- Value of a list of decimal digit characters, most significant first. -/
def digitsVal (cs : List Char) : Nat :=
  cs.foldl (fun n c => 10 * n + (c.toNat - 48)) 0

/-- Models float parsing as used by pandas to_numeric (lines 107, 222, 225)
and by the float call on line 281, restricted to plain decimal literals:
an optional sign, an integer part and an optional fractional part, with
at least one digit overall.  Non-parsable strings give none. -/
def parseNumber (s : String) : Option ℚ :=
  let cs := s.toList
  let neg : Bool := match cs with
    | '-' :: _ => true
    | _ => false
  let rest := match cs with
    | '-' :: r => r
    | '+' :: r => r
    | r => r
  let ip := rest.takeWhile Char.isDigit
  let r2 := rest.dropWhile Char.isDigit
  let v? : Option ℚ :=
    match r2 with
    | [] => if ip.isEmpty then none else some ((digitsVal ip : ℕ) : ℚ)
    | '.' :: fp =>
      if fp.all Char.isDigit && !(ip.isEmpty && fp.isEmpty) then
        some (((digitsVal ip : ℕ) : ℚ) + ((digitsVal fp : ℕ) : ℚ) / ((10 : ℚ) ^ fp.length))
      else none
    | _ => none
  v?.map (fun v => if neg then -v else v)

/-- Numeric value of a cell, defaulting to 0; only used on cells that are
known to parse (the all-numeric branch of the render, line 225). -/
def parseVal (s : String) : ℚ :=
  (parseNumber s).getD 0

/-- Insert a comma after every three digits, on a least-significant-first
digit list; helper for the grouped number format. -/
def groupAux : List Char → Nat → List Char
  | [], _ => []
  | c :: cs, k =>
    if k = 2 then c :: (if cs.isEmpty then [] else ',' :: groupAux cs 0)
    else c :: groupAux cs (k + 1)

/-- Decimal rendering of a natural number with thousands separators. -/
def groupDigits (n : Nat) : String :=
  String.mk ((groupAux (Nat.toDigits 10 n).reverse 0).reverse)

/-- Models the python format specification applied on line 282 of the
source (two decimal places, grouped thousands).  The number of cents is
obtained by rounding 100 times the value, computed on the numerator and
denominator of the rational so that the definition evaluates by kernel
reduction. -/
def formatTwoDecimals (q : ℚ) : String :=
  let n : Nat := q.num.natAbs
  let cents : Nat := (200 * n + q.den) / (2 * q.den)
  let ip := cents / 100
  let fp := cents % 100
  (if q.num < 0 then "-" else "") ++ groupDigits ip ++ "." ++
    (if fp < 10 then "0" ++ Nat.repr fp else Nat.repr fp)

/-- Boolean test that the first character list begins the second. -/
def startsWithSeq : List Char → List Char → Bool
  | [], _ => true
  | _ :: _, [] => false
  | a :: as, b :: bs => a = b && startsWithSeq as bs

/-- Boolean test that the first character list occurs contiguously
somewhere inside the second. -/
def containsSeq : List Char → List Char → Bool
  | pat, [] => pat.isEmpty
  | pat, c :: rest => startsWithSeq pat (c :: rest) || containsSeq pat rest

/-! ## The fuzzy location matcher (source lines 202-215)

The source calls extractOne of the external fuzzy-matching library to
find the best-scoring official district name for a label, and accepts
the match when the score is at least 80.  The library scorer is modelled
as the classic similarity ratio 200 * lcs / (total length), a rational
score in the interval from 0 to 100, where lcs is the length of the
longest common subsequence of the two strings; the empty-against-empty
corner is given score 100 so that equal strings always score 100. -/

/-- Fuel-indexed longest-common-subsequence length; the fuel is bounded
below by the sum of the list lengths at every call site. -/
def lcsAux : Nat → List Char → List Char → Nat
  | 0, _, _ => 0
  | _ + 1, [], _ => 0
  | _ + 1, _ :: _, [] => 0
  | f + 1, a :: as, b :: bs =>
    if a = b then lcsAux f as bs + 1
    else max (lcsAux f as (b :: bs)) (lcsAux f (a :: as) bs)

/-- Longest-common-subsequence length of two character lists. -/
def lcsLen (as bs : List Char) : Nat :=
  lcsAux (as.length + bs.length) as bs

/-- Models the similarity score of the external fuzzy-matching library:
a rational in the interval from 0 to 100, equal to 100 exactly on equal
strings. -/
def fuzzScore (a b : String) : ℚ :=
  let la := a.toList.length
  let lb := b.toList.length
  if la + lb = 0 then 100
  else ((200 * lcsLen a.toList b.toList : ℕ) : ℚ) / ((la + lb : ℕ) : ℚ)

/-- Models extractOne of the fuzzy-matching library (line 205): the
best-scoring choice together with its score, ties broken in favor of the
earliest choice in the list; none on an empty choice list. -/
def extractOne (q : String) : List String → Option (String × ℚ)
  | [] => none
  | c :: cs =>
    match extractOne q cs with
    | none => some (c, fuzzScore q c)
    | some (b, s) => if s > fuzzScore q c then some (b, s) else some (c, fuzzScore q c)

/-- Embeds get_match (source lines 204-210): accept the best fuzzy match
when its score is at least 80, otherwise report no match.  The toast
notification emitted on a corrected match is a pure side effect and is
not modelled. -/
def get_match (officials : List String) (loc : String) : Option String :=
  match extractOne loc officials with
  | none => none
  | some (m, s) => if 80 ≤ s then some m else none

/-! ## Data model -/

/-- One uploaded data row: the Location cell and the value cell. -/
structure Row where
  location : String
  value : String
deriving DecidableEq

/-- One registered uploaded layer, as stored in the upload registry of
the source (lines 81-90): the column names of the uploaded table, its
rows, the chosen value column, and the visual settings. -/
structure FileInfo where
  cols : List String
  rows : List Row
  valueCol : String
  visible : Bool
  color : String
  tooltipVisible : Bool
  displayName : String
  tooltipLabel : String
  icon : String
deriving DecidableEq

/-- Layer-scoped warning, modelling the warning call on line 219 which
names the display name of the layer. -/
inductive Warning where
  | noMatch (layer : String)
deriving DecidableEq

/-- Render primitive emitted for a matched feature of a visible layer:
a choropleth polygon carrying its ramp position t (lines 227-233), or a
text marker carrying the layer icon (lines 235-246). -/
inductive Prim where
  | poly (district : String) (t : ℚ)
  | marker (district : String) (icon : String)
deriving DecidableEq

/-- Error raised during hover composition: accessing the Location column
of a table that has none (line 269) raises a missing-key error. -/
inductive HoverErr where
  | keyError (layer : String)
deriving DecidableEq

/-- Successful value of an exceptional computation, if any. -/
def exceptOk {ε α : Type} : Except ε α → Option α
  | .ok a => some a
  | .error _ => none

/-- Error of an exceptional computation, if any. -/
def exceptErr {ε α : Type} : Except ε α → Option ε
  | .ok _ => none
  | .error e => some e

/-! ## Upload handling (source lines 74-94) -/

/-- Embeds line 79 of the source: the value column is the first column
whose lowercased name differs from the word location. -/
def findValueColumn (cols : List String) : Option String :=
  cols.find? (fun c => lowerStr c ≠ "location")

/-- Embeds lines 81-90 of the source: the registry entry built for an
accepted upload, with its default visual settings. -/
def registerLayer (fileKey : String) (cols : List String) (rows : List Row)
    (valueCol : String) : FileInfo :=
  { cols := cols
    rows := rows
    valueCol := valueCol
    visible := true
    color := "#FF4500"
    tooltipVisible := true
    displayName := fileKey.replace ".csv" ""
    tooltipLabel := valueCol.replace "_" " "
    icon := "🏞️" }

/-- Embeds lines 74-94 of the source: one upload event against the
current registry.  Returns the new registry and, when the upload is
rejected, the name of the rejected file (the error message on line 92
names the file).  A file key already present is ignored; otherwise the
file registers if a value column is found and is rejected if not. -/
def uploadStep (registry : List (String × FileInfo)) (fileKey : String)
    (cols : List String) (rows : List Row) :
    List (String × FileInfo) × Option String :=
  if (registry.map Prod.fst).contains fileKey then (registry, none)
  else
    match findValueColumn cols with
    | some vc => (registry ++ [(fileKey, registerLayer fileKey cols rows vc)], none)
    | none => (registry, some fileKey)

/-! ## Join and layer rendering (source lines 195-246) -/

/-- Merge key of a row (lines 202-214): the fuzzy match of its location
label when the fuzzy library is available, the raw label otherwise. -/
def matchKey (fuzzy : Bool) (districts : List String) (r : Row) : Option String :=
  if fuzzy then get_match districts r.location else some r.location

/-- Models the inner merge of line 216: for each district in order, the
rows whose key equals that district, paired with it.  Rows with no key
and districts with no rows disappear, as in a pandas inner merge, which
preserves left-frame key order. -/
def innerJoin (districts : List String) (rows : List Row)
    (key : Row → Option String) : List (String × Row) :=
  districts.flatMap fun d =>
    (rows.filter fun r => decide (key r = some d)).map fun r => (d, r)

/-- The joined rows of one layer against the official districts. -/
def layerJoined (districts : List String) (fuzzy : Bool) (fi : FileInfo) :
    List (String × Row) :=
  innerJoin districts fi.rows (matchKey fuzzy districts)

/-- Embeds the render-time numeric test of line 222: every value of the
merged (joined) table parses as a number. -/
def renderIsNumeric (districts : List String) (fuzzy : Bool) (fi : FileInfo) : Bool :=
  (layerJoined districts fuzzy fi).all fun p => (parseNumber p.2.value).isSome

/-- Embeds the sidebar numeric test of line 107: every value of the full
uploaded table parses as a number. -/
def sidebarIsNumeric (fi : FileInfo) : Bool :=
  fi.rows.all fun r => (parseNumber r.value).isSome

/-- Minimum of a list of rationals (0 on the empty list, which the
render never queries). -/
def listMin : List ℚ → ℚ
  | [] => 0
  | v :: vs => vs.foldl min v

/-- Maximum of a list of rationals (0 on the empty list). -/
def listMax : List ℚ → ℚ
  | [] => 0
  | v :: vs => vs.foldl max v

/-- Models numpy interp onto the unit interval (line 228): clamp below
the left endpoint to 0 and above the right endpoint to 1, linear in
between. -/
def interp01 (x lo hi : ℚ) : ℚ :=
  if x ≤ lo then 0 else if hi ≤ x then 1 else (x - lo) / (hi - lo)

/-- Embeds line 228 of the source: interpolate when the extremes differ,
otherwise the fixed mid intensity one half. -/
def normalizedVal (x lo hi : ℚ) : ℚ :=
  if lo ≠ hi then interp01 x lo hi else 1/2

/-- Models the alpha channel of sampling the two-stop colorscale of
line 229, which runs from a fully transparent color at 0 to the fully
opaque configured layer color at 1: the sampled opacity at ramp
position t is t itself. -/
def rampAlpha (t : ℚ) : ℚ := t

/-- Embeds the per-layer drawing pass of lines 195-246: nothing for an
invisible layer; nothing, silently, when the table has no Location
column or no value column; one warning and nothing drawn when the inner
join is empty; otherwise one choropleth polygon per joined row when all
joined values are numeric, one icon marker per joined row when not. -/
def renderLayer (districts : List String) (fuzzy : Bool) (fi : FileInfo) :
    List Prim × List Warning :=
  if fi.visible then
    if "Location" ∈ fi.cols ∧ fi.valueCol ≠ "" then
      let joined := layerJoined districts fuzzy fi
      if joined.isEmpty then ([], [Warning.noMatch fi.displayName])
      else
        if joined.all (fun p => (parseNumber p.2.value).isSome) then
          let vals := joined.map fun p => parseVal p.2.value
          (joined.map fun p =>
            Prim.poly p.1 (normalizedVal (parseVal p.2.value) (listMin vals) (listMax vals)), [])
        else
          (joined.map fun p => Prim.marker p.1 fi.icon, [])
    else ([], [])
  else ([], [])

/-- The drawing pass over all registered layers in registration order
(line 195), concatenating primitives and warnings. -/
def renderLayers (districts : List String) (fuzzy : Bool) :
    List FileInfo → List Prim × List Warning
  | [] => ([], [])
  | fi :: rest =>
    ((renderLayer districts fuzzy fi).1 ++ (renderLayers districts fuzzy rest).1,
     (renderLayer districts fuzzy fi).2 ++ (renderLayers districts fuzzy rest).2)

/-! ## Hover composition (source lines 259-291) -/

/-- One lettered sub-list entry of the hover text (line 277): two
spaces, the character at code point 97 plus the row index in the
uploaded table, a dot, and the raw cell value. -/
def letterItem (p : Nat × Row) : String :=
  "  " ++ (Char.ofNat (97 + p.1)).toString ++ ". " ++ p.2.value

/-- The hover selection of line 269: the rows of the full uploaded table
whose Location cell equals the district name exactly, each with its
positional index in the table (the pandas index iterrows reports). -/
def itemsInDistrict (d : String) (fi : FileInfo) : List (Nat × Row) :=
  (List.enum fi.rows).filter fun p => decide (p.2.location = d)

/-- Embeds lines 264-284 for one layer and one district: nothing when
the layer tooltip is off; a missing-key error when the table has no
Location column (the unguarded column access of line 269); otherwise
the rows whose Location cell equals the district name exactly, rendered
as a lettered sub-list when there are several, as a two-decimal grouped
number when the single value parses, and raw otherwise. -/
def layerHoverItems (d : String) (fi : FileInfo) : Except HoverErr (List String) :=
  if fi.tooltipVisible then
    if "Location" ∈ fi.cols then
      match itemsInDistrict d fi with
      | [] => .ok []
      | [(_, r)] =>
        match parseNumber r.value with
        | some q => .ok ["<b>" ++ fi.tooltipLabel ++ ":</b> " ++ formatTwoDecimals q]
        | none => .ok ["<b>" ++ fi.tooltipLabel ++ ":</b> " ++ r.value]
      | _ :: _ :: _ =>
        .ok (("<b>" ++ fi.tooltipLabel ++ ":</b>") :: (itemsInDistrict d fi).map letterItem)
    else .error (.keyError fi.displayName)
  else .ok []

/-- Embeds lines 259-284 for one district: the district-name part when
that tooltip is on, then each layer contribution in registration order;
the first missing-key error aborts the composition, as the uncaught
exception does in the source. -/
def hoverParts (d : String) (showTip : Bool) (layers : List FileInfo) :
    Except HoverErr (List String) :=
  layers.foldlM (fun acc fi => do
      let its ← layerHoverItems d fi
      pure (acc ++ its))
    (if showTip then ["<b>District:</b> " ++ d] else [])

/-- The composed hover text of one district (line 286): the parts joined
by the line-break tag. -/
def hoverText (d : String) (showTip : Bool) (layers : List FileInfo) :
    Except HoverErr String :=
  (hoverParts d showTip layers).map (String.intercalate "<br>")

/-- Whether the composed hover text of a district contains the given
string contiguously; false when composition raised. -/
def hoverContainsSub (d : String) (showTip : Bool) (layers : List FileInfo)
    (sub : String) : Bool :=
  match hoverText d showTip layers with
  | .ok s => containsSeq sub.toList s.toList
  | .error _ => false

/-- Embeds lines 259-291 over all districts: each district with a
nonempty part list contributes one invisible hover region carrying its
composed text; an uncaught missing-key error aborts the pass. -/
def composeHoverAll (districts : List String) (showTip : Bool)
    (layers : List FileInfo) : Except HoverErr (List (String × String)) :=
  districts.foldlM (fun acc d => do
      let parts ← hoverParts d showTip layers
      pure (if parts.isEmpty then acc else acc ++ [(d, String.intercalate "<br>" parts)]))
    []

/-- One full render (the body of main, lines 168-314): the drawing pass
over all layers, then the hover pass; an error raised while composing
hover text aborts the whole render, as the exception caught on line 312
replaces the map by an error report. -/
def render (districts : List String) (fuzzy showTip : Bool)
    (layers : List FileInfo) :
    Except HoverErr (List Prim × List Warning × List (String × String)) := do
  let pw := renderLayers districts fuzzy layers
  let hovers ← composeHoverAll districts showTip layers
  pure (pw.1, pw.2, hovers)

/-! ## Decidability helper and concrete fixtures used by the theorems -/

deriving instance DecidableEq for Except

/-- The uploaded layer of the two-row Kathmandu scenario: an exact row
and a typo row, both numeric. -/
def c1Layer : FileInfo :=
  { cols := ["Location", "Population"]
    rows := [⟨"Kathmandu", "120"⟩, ⟨"Katmandu", "95"⟩]
    valueCol := "Population"
    visible := true
    color := "#FF4500"
    tooltipVisible := true
    displayName := "data"
    tooltipLabel := "Population"
    icon := "🏞️" }

/-- A layer whose first row belongs to another district, so that the
rows matching Kathmandu sit at positions 1 and 2 of the table. -/
def c4Layer : FileInfo :=
  { cols := ["Location", "V"]
    rows := [⟨"Pokhara", "7"⟩, ⟨"Kathmandu", "1"⟩, ⟨"Kathmandu", "2"⟩]
    valueCol := "V"
    visible := true
    color := "#FF4500"
    tooltipVisible := true
    displayName := "events"
    tooltipLabel := "V"
    icon := "📍" }

/-- A layer with one matched numeric row and one unmatched non-numeric
row: the joined values are all numeric, the full table is not. -/
def c3Layer : FileInfo :=
  { cols := ["Location", "V"]
    rows := [⟨"Kathmandu", "5"⟩, ⟨"Nowhere", "abc"⟩]
    valueCol := "V"
    visible := true
    color := "#FF4500"
    tooltipVisible := true
    displayName := "mixed"
    tooltipLabel := "V"
    icon := "📍" }

/-- A registered layer whose table has no Location column at all. -/
def c10Layer : FileInfo :=
  { cols := ["Loc", "Val"]
    rows := [⟨"x", "1"⟩]
    valueCol := "Loc"
    visible := true
    color := "#FF4500"
    tooltipVisible := true
    displayName := "bad"
    tooltipLabel := "Val"
    icon := "📍" }

/-- A visible, well-formed layer none of whose rows names a district. -/
def c9Layer : FileInfo :=
  { cols := ["Location", "V"]
    rows := [⟨"Nowhere", "1"⟩]
    valueCol := "V"
    visible := true
    color := "#FF4500"
    tooltipVisible := true
    displayName := "lonely"
    tooltipLabel := "V"
    icon := "📍" }

/-- A single-row numeric layer: its minimum and maximum coincide. -/
def c5Layer : FileInfo :=
  { cols := ["Location", "V"]
    rows := [⟨"Kathmandu", "5"⟩]
    valueCol := "V"
    visible := true
    color := "#FF4500"
    tooltipVisible := true
    displayName := "flat"
    tooltipLabel := "V"
    icon := "📍" }

/-- A two-row numeric layer with distinct values 1 and 3. -/
def c6Layer : FileInfo :=
  { cols := ["Location", "V"]
    rows := [⟨"Kathmandu", "1"⟩, ⟨"Pokhara", "3"⟩]
    valueCol := "V"
    visible := true
    color := "#FF4500"
    tooltipVisible := true
    displayName := "ramp"
    tooltipLabel := "V"
    icon := "📍" }

/-! ## Lemmas about the longest-common-subsequence length -/

lemma lcsAux_le_left : ∀ (f : Nat) (as bs : List Char), lcsAux f as bs ≤ as.length
  | 0, _, _ => Nat.zero_le _
  | _ + 1, [], _ => Nat.zero_le _
  | _ + 1, _ :: _, [] => Nat.zero_le _
  | f + 1, a :: as, b :: bs => by
    simp only [lcsAux, List.length_cons]
    split
    · exact Nat.succ_le_succ (lcsAux_le_left f as bs)
    · exact max_le ((lcsAux_le_left f as (b :: bs)).trans (Nat.le_succ _))
        (lcsAux_le_left f (a :: as) bs)

lemma lcsAux_le_right : ∀ (f : Nat) (as bs : List Char), lcsAux f as bs ≤ bs.length
  | 0, _, _ => Nat.zero_le _
  | _ + 1, [], _ => Nat.zero_le _
  | _ + 1, _ :: _, [] => Nat.zero_le _
  | f + 1, a :: as, b :: bs => by
    simp only [lcsAux, List.length_cons]
    split
    · exact Nat.succ_le_succ (lcsAux_le_right f as bs)
    · exact max_le (lcsAux_le_right f as (b :: bs))
        ((lcsAux_le_right f (a :: as) bs).trans (Nat.le_succ _))

lemma lcsLen_le_left (as bs : List Char) : lcsLen as bs ≤ as.length :=
  lcsAux_le_left _ as bs

lemma lcsLen_le_right (as bs : List Char) : lcsLen as bs ≤ bs.length :=
  lcsAux_le_right _ as bs

lemma lcsAux_self : ∀ (as : List Char) (f : Nat), as.length + as.length ≤ f →
    lcsAux f as as = as.length := by
  intro as
  induction as with
  | nil => intro f _; cases f <;> rfl
  | cons a as ih =>
    intro f hf
    cases f with
    | zero => simp at hf
    | succ f =>
      have hrec := ih f (by simp only [List.length_cons] at hf; omega)
      simp [lcsAux, hrec]

lemma lcsLen_self (as : List Char) : lcsLen as as = as.length :=
  lcsAux_self as _ le_rfl

lemma lcsAux_full : ∀ (f : Nat) (as bs : List Char),
    lcsAux f as bs = as.length → as.length = bs.length → as = bs := by
  intro f
  induction f with
  | zero =>
    intro as bs h hl
    cases as with
    | nil => cases bs with
      | nil => rfl
      | cons b bs => simp at hl
    | cons a as => simp [lcsAux] at h
  | succ f ih =>
    intro as bs h hl
    cases as with
    | nil =>
      cases bs with
      | nil => rfl
      | cons b bs => simp at hl
    | cons a as =>
      cases bs with
      | nil => simp [lcsAux] at h
      | cons b bs =>
        simp only [lcsAux, List.length_cons] at h hl
        by_cases hab : a = b
        · subst hab
          rw [if_pos rfl] at h
          rw [ih as bs (by omega) (by omega)]
        · rw [if_neg hab] at h
          have h1 : lcsAux f as (b :: bs) ≤ as.length := lcsAux_le_left f as (b :: bs)
          have h2 : lcsAux f (a :: as) bs ≤ bs.length := lcsAux_le_right f (a :: as) bs
          have := max_le h1 (h2.trans (by omega : bs.length ≤ as.length))
          omega

lemma lcsLen_full (as bs : List Char) (h : lcsLen as bs = as.length)
    (hl : as.length = bs.length) : as = bs :=
  lcsAux_full _ as bs h hl

/-! ## Lemmas about the modelled fuzzy score -/

lemma toList_inj (a b : String) (h : a.toList = b.toList) : a = b := by
  cases a
  cases b
  simp only [String.toList] at h
  rw [h]

lemma fuzzScore_eval (a b : String) (n m : ℕ) (hl : lcsLen a.toList b.toList = n)
    (hm : a.toList.length + b.toList.length = m) (h0 : m ≠ 0) :
    fuzzScore a b = (200 * (n : ℚ)) / (m : ℚ) := by
  unfold fuzzScore
  simp only []
  rw [hm, hl, if_neg h0]
  push_cast
  ring_nf

lemma fuzzScore_self (a : String) : fuzzScore a a = 100 := by
  unfold fuzzScore
  simp only []
  by_cases h : a.toList.length + a.toList.length = 0
  · rw [if_pos h]
  · rw [if_neg h, lcsLen_self]
    rw [div_eq_iff (by exact_mod_cast h)]
    push_cast
    ring

lemma fuzzScore_le_100 (a b : String) : fuzzScore a b ≤ 100 := by
  unfold fuzzScore
  simp only []
  by_cases h : a.toList.length + b.toList.length = 0
  · rw [if_pos h]
  · rw [if_neg h]
    rw [div_le_iff₀ (by positivity)]
    have h1 := lcsLen_le_left a.toList b.toList
    have h2 := lcsLen_le_right a.toList b.toList
    have hn : 200 * lcsLen a.toList b.toList ≤ 100 * (a.toList.length + b.toList.length) := by
      omega
    exact_mod_cast hn

lemma fuzzScore_eq_100 (a b : String) (h : fuzzScore a b = 100) : a = b := by
  unfold fuzzScore at h
  simp only [] at h
  by_cases h0 : a.toList.length + b.toList.length = 0
  · apply toList_inj
    have ha : a.toList = [] := List.length_eq_zero.mp (by omega)
    have hb : b.toList = [] := List.length_eq_zero.mp (by omega)
    rw [ha, hb]
  · rw [if_neg h0] at h
    rw [div_eq_iff (by exact_mod_cast h0)] at h
    have hn : 200 * lcsLen a.toList b.toList = 100 * (a.toList.length + b.toList.length) := by
      exact_mod_cast h
    have h1 := lcsLen_le_left a.toList b.toList
    have h2 := lcsLen_le_right a.toList b.toList
    have hla : lcsLen a.toList b.toList = a.toList.length := by omega
    have hlb : a.toList.length = b.toList.length := by omega
    exact toList_inj a b (lcsLen_full _ _ hla hlb)

lemma fuzzScore_lt_100 (a b : String) (h : a ≠ b) : fuzzScore a b < 100 :=
  lt_of_le_of_ne (fuzzScore_le_100 a b) (fun he => h (fuzzScore_eq_100 a b he))

lemma fuzzScore_lt_of_nat (a b : String) (m : ℕ)
    (hm : a.toList.length + b.toList.length = m) (h0 : m ≠ 0)
    (h : 200 * lcsLen a.toList b.toList < 80 * m) : fuzzScore a b < 80 := by
  rw [fuzzScore_eval a b _ m rfl hm h0]
  rw [div_lt_iff₀ (by positivity)]
  exact_mod_cast h

/-! ## Lemmas about the modelled extractOne -/

lemma extractOne_eq_some (q : String) : ∀ (l : List String) (b : String) (s : ℚ),
    extractOne q l = some (b, s) → b ∈ l ∧ s = fuzzScore q b := by
  intro l
  induction l with
  | nil => intro b s h; simp [extractOne] at h
  | cons c cs ih =>
    intro b s h
    simp only [extractOne] at h
    cases hrec : extractOne q cs with
    | none =>
      simp only [hrec, Option.some.injEq, Prod.mk.injEq] at h
      obtain ⟨h1, h2⟩ := h
      subst h1; subst h2
      exact ⟨List.mem_cons_self c cs, rfl⟩
    | some p =>
      obtain ⟨b0, s0⟩ := p
      simp only [hrec] at h
      by_cases hcmp : s0 > fuzzScore q c
      · rw [if_pos hcmp] at h
        injection h with h
        injection h with h1 h2
        subst h1; subst h2
        obtain ⟨hmem, hsc⟩ := ih _ _ hrec
        exact ⟨List.mem_cons_of_mem c hmem, hsc⟩
      · rw [if_neg hcmp] at h
        injection h with h
        injection h with h1 h2
        subst h1; subst h2
        exact ⟨List.mem_cons_self c cs, rfl⟩

lemma extractOne_self_mem (q : String) : ∀ (l : List String), q ∈ l →
    extractOne q l = some (q, 100) := by
  intro l
  induction l with
  | nil => intro h; simp at h
  | cons c cs ih =>
    intro hmem
    by_cases hq : q = c
    · subst hq
      simp only [extractOne]
      cases hrec : extractOne q cs with
      | none => simp only [hrec, fuzzScore_self]
      | some p =>
        obtain ⟨b0, s0⟩ := p
        have hs0 := (extractOne_eq_some q cs b0 s0 hrec).2
        have hle : s0 ≤ 100 := by rw [hs0]; exact fuzzScore_le_100 q b0
        simp only [hrec, fuzzScore_self]
        rw [if_neg (by exact not_lt.mpr hle)]
    · have hmem2 : q ∈ cs := by
        cases hmem with
        | head => exact absurd rfl hq
        | tail _ h => exact h
      simp only [extractOne, ih hmem2]
      have hlt : fuzzScore q c < 100 := fuzzScore_lt_100 q c hq
      rw [if_pos hlt]

lemma get_match_self_mem (districts : List String) (label : String)
    (hmem : label ∈ districts) : get_match districts label = some label := by
  rw [get_match, extractOne_self_mem label districts hmem]
  norm_num

/-! ## Lemmas about normalization and the drawing pass -/

lemma interp01_nonneg (x lo hi : ℚ) : 0 ≤ interp01 x lo hi := by
  rw [interp01]
  split
  · exact le_rfl
  · split
    · exact zero_le_one
    · next hxlo _ =>
      have h1 : lo < x := not_le.mp hxlo
      apply div_nonneg <;> linarith

lemma interp01_le_one (x lo hi : ℚ) : interp01 x lo hi ≤ 1 := by
  rw [interp01]
  split
  · exact zero_le_one
  · split
    · exact le_rfl
    · next hxlo hhix =>
      have h1 : lo < x := not_le.mp hxlo
      have h2 : x < hi := not_le.mp hhix
      rw [div_le_one (by linarith)]
      linarith

lemma interp01_mono (x y lo hi : ℚ) (hlt : lo < hi) (hxy : x ≤ y) :
    interp01 x lo hi ≤ interp01 y lo hi := by
  by_cases hx : x ≤ lo
  · rw [interp01, if_pos hx]
    exact interp01_nonneg y lo hi
  · have hlox : lo < x := not_le.mp hx
    have hy : ¬ y ≤ lo := not_le.mpr (lt_of_lt_of_le hlox hxy)
    by_cases hxhi : hi ≤ x
    · rw [interp01, if_neg hx, if_pos hxhi, interp01, if_neg hy, if_pos (hxhi.trans hxy)]
    · rw [interp01, if_neg hx, if_neg hxhi]
      by_cases hyhi : hi ≤ y
      · rw [interp01, if_neg hy, if_pos hyhi]
        rw [div_le_one (by linarith)]
        have := not_le.mp hxhi
        linarith
      · rw [interp01, if_neg hy, if_neg hyhi]
        have hpos : (0:ℚ) < hi - lo := by linarith
        rw [div_le_div_iff_of_pos_right hpos]
        linarith

lemma foldl_min_le_init (vs : List ℚ) : ∀ (v : ℚ), vs.foldl min v ≤ v := by
  induction vs with
  | nil => intro v; exact le_rfl
  | cons a vs ih =>
    intro v
    exact le_trans (ih (min v a)) (min_le_left v a)

lemma init_le_foldl_max (vs : List ℚ) : ∀ (v : ℚ), v ≤ vs.foldl max v := by
  induction vs with
  | nil => intro v; exact le_rfl
  | cons a vs ih =>
    intro v
    exact le_trans (le_max_left v a) (ih (max v a))

lemma listMin_le_listMax (vs : List ℚ) (h : vs ≠ []) : listMin vs ≤ listMax vs := by
  cases vs with
  | nil => exact absurd rfl h
  | cons v vs =>
    rw [listMin, listMax]
    exact le_trans (foldl_min_le_init vs v) (init_le_foldl_max vs v)

lemma renderLayer_numeric_eq (districts : List String) (fuzzy : Bool) (fi : FileInfo)
    (hv : fi.visible = true) (hcol : "Location" ∈ fi.cols) (hvc : fi.valueCol ≠ "")
    (hne : layerJoined districts fuzzy fi ≠ [])
    (hnum : renderIsNumeric districts fuzzy fi = true) :
    renderLayer districts fuzzy fi =
      ((layerJoined districts fuzzy fi).map fun p =>
        Prim.poly p.1 (normalizedVal (parseVal p.2.value)
          (listMin ((layerJoined districts fuzzy fi).map fun p => parseVal p.2.value))
          (listMax ((layerJoined districts fuzzy fi).map fun p => parseVal p.2.value))), []) := by
  rw [renderLayer]
  rw [hv]
  rw [if_pos rfl]
  rw [if_pos ⟨hcol, hvc⟩]
  simp only []
  rw [if_neg (by simp [List.isEmpty_iff, hne])]
  rw [if_pos (show ((layerJoined districts fuzzy fi).all
    fun p => (parseNumber p.2.value).isSome) = true from hnum)]

lemma renderLayer_marker_eq (districts : List String) (fuzzy : Bool) (fi : FileInfo)
    (hv : fi.visible = true) (hcol : "Location" ∈ fi.cols) (hvc : fi.valueCol ≠ "")
    (hne : layerJoined districts fuzzy fi ≠ [])
    (hnum : renderIsNumeric districts fuzzy fi = false) :
    renderLayer districts fuzzy fi =
      ((layerJoined districts fuzzy fi).map fun p => Prim.marker p.1 fi.icon, []) := by
  rw [renderLayer]
  rw [hv]
  rw [if_pos rfl]
  rw [if_pos ⟨hcol, hvc⟩]
  simp only []
  rw [if_neg (by simp [List.isEmpty_iff, hne])]
  rw [if_neg (by
    rw [show ((layerJoined districts fuzzy fi).all
      fun p => (parseNumber p.2.value).isSome) = renderIsNumeric districts fuzzy fi from rfl,
      hnum]
    exact Bool.false_ne_true)]

lemma renderLayer_empty_join (districts : List String) (fuzzy : Bool) (fi : FileInfo)
    (hv : fi.visible = true) (hcol : "Location" ∈ fi.cols) (hvc : fi.valueCol ≠ "")
    (hj : layerJoined districts fuzzy fi = []) :
    renderLayer districts fuzzy fi = ([], [Warning.noMatch fi.displayName]) := by
  rw [renderLayer]
  rw [hv]
  rw [if_pos rfl]
  rw [if_pos ⟨hcol, hvc⟩]
  simp only []
  rw [if_pos (by simp [List.isEmpty_iff, hj])]

lemma renderLayers_append (districts : List String) (fuzzy : Bool) :
    ∀ (xs ys : List FileInfo),
    renderLayers districts fuzzy (xs ++ ys) =
      ((renderLayers districts fuzzy xs).1 ++ (renderLayers districts fuzzy ys).1,
       (renderLayers districts fuzzy xs).2 ++ (renderLayers districts fuzzy ys).2) := by
  intro xs ys
  induction xs with
  | nil => simp [renderLayers]
  | cons fi rest ih =>
    simp only [List.cons_append, renderLayers, List.append_eq, ih, List.append_assoc]

/-! ## Claim C7 -/

/-- Claim C7: a label character-for-character equal to an official
district name always matches that name, both through the fuzzy matcher
(the exact label scores 100, above the threshold 80) and through the
exact-equality merge used when fuzzy matching is unavailable. -/
theorem claim_C7_exact_label_always_matches (districts : List String) (label v : String)
    (hmem : label ∈ districts) :
    get_match districts label = some label ∧
    matchKey false districts ⟨label, v⟩ = some label ∧
    (label, (⟨label, v⟩ : Row)) ∈
      innerJoin districts [⟨label, v⟩] (matchKey false districts) := by
  refine ⟨get_match_self_mem districts label hmem, rfl, ?_⟩
  rw [innerJoin]
  rw [List.mem_flatMap]
  refine ⟨label, hmem, ?_⟩
  simp [matchKey]

/-- Witness for claim C7, at the label Kathmandu inside the two-element
official list. -/
theorem claim_C7_witness :
    ("Kathmandu" ∈ ["Kathmandu", "Pokhara"]) ∧
    (get_match ["Kathmandu", "Pokhara"] "Kathmandu" = some "Kathmandu" ∧
     matchKey false ["Kathmandu", "Pokhara"] ⟨"Kathmandu", "7"⟩ = some "Kathmandu" ∧
     ("Kathmandu", (⟨"Kathmandu", "7"⟩ : Row)) ∈
       innerJoin ["Kathmandu", "Pokhara"] [⟨"Kathmandu", "7"⟩]
         (matchKey false ["Kathmandu", "Pokhara"])) :=
  ⟨by decide, claim_C7_exact_label_always_matches _ _ "7" (by decide)⟩

/-! ## Claim C8 -/

/-- Claim C8: with fuzzy matching available, a label whose similarity
score against every official name is strictly below 80 is left
unmatched by the matcher. -/
theorem claim_C8_low_scores_never_match (districts : List String) (loc : String)
    (h : ∀ d ∈ districts, fuzzScore loc d < 80) :
    get_match districts loc = none := by
  rw [get_match]
  cases hrec : extractOne loc districts with
  | none => rfl
  | some p =>
    obtain ⟨b, s⟩ := p
    obtain ⟨hb, hs⟩ := extractOne_eq_some loc districts b s hrec
    dsimp only
    rw [if_neg (by rw [hs]; exact not_le.mpr (h b hb))]

/-- Witness for claim C8, at a label scoring 0 against the single
official name. -/
theorem claim_C8_witness :
    (∀ d ∈ ["Kathmandu"], fuzzScore "Zzz" d < 80) ∧
    get_match ["Kathmandu"] "Zzz" = none :=
  have h : ∀ d ∈ ["Kathmandu"], fuzzScore "Zzz" d < 80 := by
    intro d hd
    rw [List.mem_singleton] at hd
    subst hd
    exact fuzzScore_lt_of_nat _ _ 12 (by decide) (by decide) (by decide)
  ⟨h, claim_C8_low_scores_never_match _ _ h⟩

/-! ## Claim C5 -/

/-- Claim C5: for a numeric layer whose matched values all coincide
(minimum equal to maximum, including the single-row case), every
emitted choropleth primitive carries the fixed mid intensity one half,
and the normalization takes the constant branch rather than dividing
by the zero range. -/
theorem claim_C5_constant_values_mid_intensity (districts : List String) (fuzzy : Bool)
    (fi : FileInfo) (hv : fi.visible = true) (hcol : "Location" ∈ fi.cols)
    (hvc : fi.valueCol ≠ "") (hne : layerJoined districts fuzzy fi ≠ [])
    (hnum : renderIsNumeric districts fuzzy fi = true)
    (heq : listMin ((layerJoined districts fuzzy fi).map fun p => parseVal p.2.value) =
           listMax ((layerJoined districts fuzzy fi).map fun p => parseVal p.2.value)) :
    (renderLayer districts fuzzy fi).1 ≠ [] ∧
    ∀ p ∈ (renderLayer districts fuzzy fi).1, ∃ d, p = Prim.poly d (1/2) := by
  rw [renderLayer_numeric_eq districts fuzzy fi hv hcol hvc hne hnum]
  constructor
  · simp only [ne_eq, List.map_eq_nil_iff]
    exact hne
  · intro p hp
    rw [List.mem_map] at hp
    obtain ⟨x, hx, rfl⟩ := hp
    refine ⟨x.1, ?_⟩
    rw [normalizedVal, if_neg (by simp [heq])]

/-- Witness for claim C5, at a visible single-row numeric layer. -/
theorem claim_C5_witness :
    ((c5Layer.visible = true) ∧ ("Location" ∈ c5Layer.cols) ∧ (c5Layer.valueCol ≠ "") ∧
     (layerJoined ["Kathmandu"] false c5Layer ≠ []) ∧
     (renderIsNumeric ["Kathmandu"] false c5Layer = true) ∧
     (listMin ((layerJoined ["Kathmandu"] false c5Layer).map fun p => parseVal p.2.value) =
      listMax ((layerJoined ["Kathmandu"] false c5Layer).map fun p => parseVal p.2.value))) ∧
    ((renderLayer ["Kathmandu"] false c5Layer).1 ≠ [] ∧
     ∀ p ∈ (renderLayer ["Kathmandu"] false c5Layer).1, ∃ d, p = Prim.poly d (1/2)) :=
  ⟨⟨rfl, by decide, by decide, by decide, by decide, by decide⟩,
   claim_C5_constant_values_mid_intensity ["Kathmandu"] false c5Layer rfl (by decide)
     (by decide) (by decide) (by decide) (by decide)⟩

/-! ## Claim C6 -/

/-- Claim C6: for a numeric layer with distinct minimum and maximum
over the matched rows, a matched row holding the minimum is drawn at
ramp position 0, a matched row holding the maximum at ramp position 1,
and normalization is monotone, so a higher value yields an
equal-or-higher opacity along the two-stop ramp. -/
theorem claim_C6_endpoints_and_monotone (districts : List String) (fuzzy : Bool)
    (fi : FileInfo) (hv : fi.visible = true) (hcol : "Location" ∈ fi.cols)
    (hvc : fi.valueCol ≠ "") (hne : layerJoined districts fuzzy fi ≠ [])
    (hnum : renderIsNumeric districts fuzzy fi = true)
    (hdiff : listMin ((layerJoined districts fuzzy fi).map fun p => parseVal p.2.value) ≠
             listMax ((layerJoined districts fuzzy fi).map fun p => parseVal p.2.value)) :
    (∀ p ∈ layerJoined districts fuzzy fi,
      parseVal p.2.value =
        listMin ((layerJoined districts fuzzy fi).map fun p => parseVal p.2.value) →
      Prim.poly p.1 0 ∈ (renderLayer districts fuzzy fi).1) ∧
    (∀ p ∈ layerJoined districts fuzzy fi,
      parseVal p.2.value =
        listMax ((layerJoined districts fuzzy fi).map fun p => parseVal p.2.value) →
      Prim.poly p.1 1 ∈ (renderLayer districts fuzzy fi).1) ∧
    (∀ p q : String × Row, p ∈ layerJoined districts fuzzy fi →
      q ∈ layerJoined districts fuzzy fi →
      parseVal p.2.value ≤ parseVal q.2.value →
      rampAlpha (normalizedVal (parseVal p.2.value)
        (listMin ((layerJoined districts fuzzy fi).map fun p => parseVal p.2.value))
        (listMax ((layerJoined districts fuzzy fi).map fun p => parseVal p.2.value))) ≤
      rampAlpha (normalizedVal (parseVal q.2.value)
        (listMin ((layerJoined districts fuzzy fi).map fun p => parseVal p.2.value))
        (listMax ((layerJoined districts fuzzy fi).map fun p => parseVal p.2.value)))) := by
  have hvalsne : ((layerJoined districts fuzzy fi).map fun p => parseVal p.2.value) ≠ [] := by
    simp only [ne_eq, List.map_eq_nil_iff]
    exact hne
  have hlt : listMin ((layerJoined districts fuzzy fi).map fun p => parseVal p.2.value) <
      listMax ((layerJoined districts fuzzy fi).map fun p => parseVal p.2.value) :=
    lt_of_le_of_ne (listMin_le_listMax _ hvalsne) hdiff
  rw [renderLayer_numeric_eq districts fuzzy fi hv hcol hvc hne hnum]
  refine ⟨?_, ?_, ?_⟩
  · intro p hp hmin
    rw [List.mem_map]
    refine ⟨p, hp, ?_⟩
    rw [hmin, normalizedVal, if_pos (ne_of_lt hlt), interp01, if_pos le_rfl]
  · intro p hp hmax
    rw [List.mem_map]
    refine ⟨p, hp, ?_⟩
    rw [hmax, normalizedVal, if_pos (ne_of_lt hlt), interp01,
      if_neg (not_le.mpr hlt), if_pos le_rfl]
  · intro p q _ _ hpq
    rw [rampAlpha, rampAlpha, normalizedVal, normalizedVal, if_pos (ne_of_lt hlt),
      if_pos (ne_of_lt hlt)]
    exact interp01_mono _ _ _ _ hlt hpq

/-- Witness for claim C6, at a two-row numeric layer with values 1
and 3. -/
theorem claim_C6_witness :
    ((c6Layer.visible = true) ∧ ("Location" ∈ c6Layer.cols) ∧ (c6Layer.valueCol ≠ "") ∧
     (layerJoined ["Kathmandu", "Pokhara"] false c6Layer ≠ []) ∧
     (renderIsNumeric ["Kathmandu", "Pokhara"] false c6Layer = true) ∧
     (listMin ((layerJoined ["Kathmandu", "Pokhara"] false c6Layer).map
        fun p => parseVal p.2.value) ≠
      listMax ((layerJoined ["Kathmandu", "Pokhara"] false c6Layer).map
        fun p => parseVal p.2.value))) ∧
    ((∀ p ∈ layerJoined ["Kathmandu", "Pokhara"] false c6Layer,
      parseVal p.2.value =
        listMin ((layerJoined ["Kathmandu", "Pokhara"] false c6Layer).map
          fun p => parseVal p.2.value) →
      Prim.poly p.1 0 ∈ (renderLayer ["Kathmandu", "Pokhara"] false c6Layer).1) ∧
    (∀ p ∈ layerJoined ["Kathmandu", "Pokhara"] false c6Layer,
      parseVal p.2.value =
        listMax ((layerJoined ["Kathmandu", "Pokhara"] false c6Layer).map
          fun p => parseVal p.2.value) →
      Prim.poly p.1 1 ∈ (renderLayer ["Kathmandu", "Pokhara"] false c6Layer).1) ∧
    (∀ p q : String × Row, p ∈ layerJoined ["Kathmandu", "Pokhara"] false c6Layer →
      q ∈ layerJoined ["Kathmandu", "Pokhara"] false c6Layer →
      parseVal p.2.value ≤ parseVal q.2.value →
      rampAlpha (normalizedVal (parseVal p.2.value)
        (listMin ((layerJoined ["Kathmandu", "Pokhara"] false c6Layer).map
          fun p => parseVal p.2.value))
        (listMax ((layerJoined ["Kathmandu", "Pokhara"] false c6Layer).map
          fun p => parseVal p.2.value))) ≤
      rampAlpha (normalizedVal (parseVal q.2.value)
        (listMin ((layerJoined ["Kathmandu", "Pokhara"] false c6Layer).map
          fun p => parseVal p.2.value))
        (listMax ((layerJoined ["Kathmandu", "Pokhara"] false c6Layer).map
          fun p => parseVal p.2.value))))) :=
  ⟨⟨rfl, by decide, by decide, by decide, by decide, by decide⟩,
   claim_C6_endpoints_and_monotone ["Kathmandu", "Pokhara"] false c6Layer rfl (by decide)
     (by decide) (by decide) (by decide) (by decide)⟩

/-! ## Claim C9 -/

/-- Claim C9: a visible, well-formed layer whose inner join against the
districts is empty contributes exactly one layer-scoped warning and no
primitive, and removing it from any layer list leaves every other
layer contribution unchanged, so the drawing pass is not aborted. -/
theorem claim_C9_zero_join_isolated_warning (districts : List String) (fuzzy : Bool)
    (pre post : List FileInfo) (fi : FileInfo)
    (hv : fi.visible = true) (hcol : "Location" ∈ fi.cols) (hvc : fi.valueCol ≠ "")
    (hj : layerJoined districts fuzzy fi = []) :
    renderLayer districts fuzzy fi = ([], [Warning.noMatch fi.displayName]) ∧
    (renderLayers districts fuzzy (pre ++ fi :: post)).1 =
      (renderLayers districts fuzzy (pre ++ post)).1 ∧
    (renderLayers districts fuzzy (pre ++ fi :: post)).2 =
      (renderLayers districts fuzzy pre).2 ++
        Warning.noMatch fi.displayName :: (renderLayers districts fuzzy post).2 := by
  have hlayer := renderLayer_empty_join districts fuzzy fi hv hcol hvc hj
  refine ⟨hlayer, ?_, ?_⟩
  · rw [renderLayers_append, renderLayers_append]
    simp [renderLayers, hlayer]
  · rw [renderLayers_append]
    simp [renderLayers, hlayer]

/-- Witness for claim C9, with the empty-join layer sitting between two
rendering layers. -/
theorem claim_C9_witness :
    ((c9Layer.visible = true) ∧ ("Location" ∈ c9Layer.cols) ∧ (c9Layer.valueCol ≠ "") ∧
     (layerJoined ["Kathmandu"] false c9Layer = [])) ∧
    (renderLayer ["Kathmandu"] false c9Layer = ([], [Warning.noMatch c9Layer.displayName]) ∧
     (renderLayers ["Kathmandu"] false ([c6Layer] ++ c9Layer :: [c5Layer])).1 =
       (renderLayers ["Kathmandu"] false ([c6Layer] ++ [c5Layer])).1 ∧
     (renderLayers ["Kathmandu"] false ([c6Layer] ++ c9Layer :: [c5Layer])).2 =
       (renderLayers ["Kathmandu"] false [c6Layer]).2 ++
         Warning.noMatch c9Layer.displayName :: (renderLayers ["Kathmandu"] false [c5Layer]).2) :=
  ⟨⟨rfl, by decide, by decide, by decide⟩,
   claim_C9_zero_join_isolated_warning ["Kathmandu"] false [c6Layer] [c5Layer] c9Layer rfl
     (by decide) (by decide) (by decide)⟩

/-! ## Claim C10 -/

/-- Claim C10 counterexample: a registered layer without a Location
column is skipped silently by the drawing pass, but with its tooltip
toggle on (the registration default) the hover pass raises a
missing-key error, so the render does report an error rather than
skipping the layer silently, refuting the claim. -/
theorem claim_C10_counterexample :
    renderLayer ["Kathmandu"] true c10Layer = ([], []) ∧
    exceptErr (render ["Kathmandu"] true true [c10Layer]) = some (.keyError "bad") := by
  constructor
  · decide
  · decide

/-- Claim C10 as amended: the drawing pass skips a layer without a
Location column silently, with no primitive and no warning; the hover
pass raises a missing-key error for it whenever its tooltip toggle is
on, and only contributes nothing when the tooltip toggle is off. -/
theorem claim_C10_amended_drawing_silent_hover_raises (districts : List String) (fuzzy : Bool)
    (fi : FileInfo) (h : "Location" ∉ fi.cols) :
    renderLayer districts fuzzy fi = ([], []) ∧
    (∀ d, fi.tooltipVisible = true →
      layerHoverItems d fi = .error (.keyError fi.displayName)) ∧
    (∀ d, fi.tooltipVisible = false → layerHoverItems d fi = .ok []) := by
  refine ⟨?_, ?_, ?_⟩
  · rw [renderLayer]
    by_cases hv : fi.visible = true
    · rw [hv, if_pos rfl, if_neg (fun hc => h hc.1)]
    · rw [if_neg hv]
  · intro d htip
    rw [layerHoverItems, htip, if_pos rfl, if_neg h]
  · intro d htip
    rw [layerHoverItems, htip]
    simp

/-- Witness for the amended claim C10, at the registered layer with
columns Loc and Val. -/
theorem claim_C10_amended_witness :
    ("Location" ∉ c10Layer.cols) ∧
    (renderLayer ["Kathmandu"] true c10Layer = ([], []) ∧
     (∀ d, c10Layer.tooltipVisible = true →
       layerHoverItems d c10Layer = .error (.keyError c10Layer.displayName)) ∧
     (∀ d, c10Layer.tooltipVisible = false → layerHoverItems d c10Layer = .ok [])) :=
  ⟨by decide,
   claim_C10_amended_drawing_silent_hover_raises ["Kathmandu"] true c10Layer (by decide)⟩

/-! ## Claim C3 -/

/-- Claim C3 counterexample: a layer whose matched rows are all numeric
but whose full table contains a non-numeric value is classified
NUMERIC by the render-time test, while the all-rows classification the
claim asserts is CATEGORICAL, refuting the stated equivalence. -/
theorem claim_C3_counterexample :
    renderIsNumeric ["Kathmandu", "Pokhara"] false c3Layer = true ∧
    sidebarIsNumeric c3Layer = false ∧
    (c3Layer.rows.all fun r => (parseNumber r.value).isSome) = false := by
  refine ⟨by decide, by decide, by decide⟩

/-- Claim C3 as amended: the render-time kind is computed over the
matched (inner-joined) rows only, and it is this matched-rows test that
selects choropleth polygons when true and icon markers when false; a
layer with zero matched rows is skipped with a warning before any
classification is used. -/
theorem claim_C3_amended_kind_over_matched_rows (districts : List String) (fuzzy : Bool)
    (fi : FileInfo) (hv : fi.visible = true) (hcol : "Location" ∈ fi.cols)
    (hvc : fi.valueCol ≠ "") (hne : layerJoined districts fuzzy fi ≠ []) :
    (renderIsNumeric districts fuzzy fi =
      ((layerJoined districts fuzzy fi).all fun p => (parseNumber p.2.value).isSome)) ∧
    (renderIsNumeric districts fuzzy fi = true →
      ∀ p ∈ (renderLayer districts fuzzy fi).1, ∃ d t, p = Prim.poly d t) ∧
    (renderIsNumeric districts fuzzy fi = false →
      ∀ p ∈ (renderLayer districts fuzzy fi).1, ∃ d, p = Prim.marker d fi.icon) := by
  refine ⟨rfl, ?_, ?_⟩
  · intro hnum p hp
    rw [renderLayer_numeric_eq districts fuzzy fi hv hcol hvc hne hnum] at hp
    rw [List.mem_map] at hp
    obtain ⟨x, _, rfl⟩ := hp
    exact ⟨x.1, _, rfl⟩
  · intro hnum p hp
    rw [renderLayer_marker_eq districts fuzzy fi hv hcol hvc hne hnum] at hp
    rw [List.mem_map] at hp
    obtain ⟨x, _, rfl⟩ := hp
    exact ⟨x.1, rfl⟩

/-- Witness for the amended claim C3, at the mixed layer whose matched
rows are numeric. -/
theorem claim_C3_amended_witness :
    ((c3Layer.visible = true) ∧ ("Location" ∈ c3Layer.cols) ∧ (c3Layer.valueCol ≠ "") ∧
     (layerJoined ["Kathmandu", "Pokhara"] false c3Layer ≠ [])) ∧
    ((renderIsNumeric ["Kathmandu", "Pokhara"] false c3Layer =
       ((layerJoined ["Kathmandu", "Pokhara"] false c3Layer).all
         fun p => (parseNumber p.2.value).isSome)) ∧
     (renderIsNumeric ["Kathmandu", "Pokhara"] false c3Layer = true →
       ∀ p ∈ (renderLayer ["Kathmandu", "Pokhara"] false c3Layer).1,
         ∃ d t, p = Prim.poly d t) ∧
     (renderIsNumeric ["Kathmandu", "Pokhara"] false c3Layer = false →
       ∀ p ∈ (renderLayer ["Kathmandu", "Pokhara"] false c3Layer).1,
         ∃ d, p = Prim.marker d c3Layer.icon)) :=
  ⟨⟨rfl, by decide, by decide, by decide⟩,
   claim_C3_amended_kind_over_matched_rows ["Kathmandu", "Pokhara"] false c3Layer rfl
     (by decide) (by decide) (by decide)⟩

/-! ## Claim C2 -/

/-- Claim C2 counterexample: a file with columns Loc and Val, which has
no column named Location, is accepted by the upload handler (the value
column found is Loc) with no error, refuting the claimed rejection. -/
theorem claim_C2_counterexample :
    (uploadStep [] "data.csv" ["Loc", "Val"] [⟨"x", "1"⟩]).2 = none ∧
    ((uploadStep [] "data.csv" ["Loc", "Val"] [⟨"x", "1"⟩]).1.map Prod.fst) = ["data.csv"] := by
  constructor
  · rfl
  · rfl

/-- Claim C2 as amended: a new upload is rejected with an error naming
the file exactly when every column name lowercases to the word
location, so that no value column can be found; the presence of a
Location column is never checked at load time.  Previously registered
uploads are preserved by every upload step. -/
theorem claim_C2_amended_rejection_rule (registry : List (String × FileInfo))
    (fileKey : String) (cols : List String) (rows : List Row)
    (hnew : fileKey ∉ registry.map Prod.fst) :
    ((uploadStep registry fileKey cols rows).2 = some fileKey ↔
      ∀ c ∈ cols, lowerStr c = "location") ∧
    (∀ e ∈ registry, e ∈ (uploadStep registry fileKey cols rows).1) := by
  have hcont : ((registry.map Prod.fst).contains fileKey) = false := by
    simpa using hnew
  rw [uploadStep]
  rw [if_neg (by rw [hcont]; exact Bool.false_ne_true)]
  cases hfind : findValueColumn cols with
  | some vc =>
    dsimp only
    constructor
    · constructor
      · intro habs; exact absurd habs (by simp)
      · intro hall
        obtain hvc := List.find?_some hfind
        have hmem := List.mem_of_find?_eq_some hfind
        rw [decide_eq_true_eq] at hvc
        exact absurd (hall vc hmem) hvc
    · intro e he
      exact List.mem_append_left _ he
  | none =>
    dsimp only
    constructor
    · constructor
      · intro _
        rw [findValueColumn] at hfind
        intro c hc
        have := List.find?_eq_none.mp hfind c hc
        rw [decide_eq_true_eq] at this
        exact not_not.mp this
      · intro _; rfl
    · intro e he; exact he

/-- Witness for the amended claim C2, uploading the Loc-and-Val file
into an empty registry. -/
theorem claim_C2_amended_witness :
    ("a.csv" ∉ ([] : List (String × FileInfo)).map Prod.fst) ∧
    (((uploadStep [] "a.csv" ["Loc", "Val"] [⟨"x", "1"⟩]).2 = some "a.csv" ↔
       ∀ c ∈ ["Loc", "Val"], lowerStr c = "location") ∧
     (∀ e ∈ ([] : List (String × FileInfo)),
       e ∈ (uploadStep [] "a.csv" ["Loc", "Val"] [⟨"x", "1"⟩]).1)) :=
  ⟨by decide, claim_C2_amended_rejection_rule [] "a.csv" ["Loc", "Val"] [⟨"x", "1"⟩] (by decide)⟩

/-! ## Claim C1 -/

lemma get_match_katmandu :
    get_match ["Kathmandu", "Pokhara"] "Katmandu" = some "Kathmandu" := by
  have h1 : fuzzScore "Katmandu" "Kathmandu" = (200 * (8:ℚ)) / (17:ℚ) :=
    fuzzScore_eval _ _ 8 17 (by decide) (by decide) (by decide)
  have h2 : fuzzScore "Katmandu" "Pokhara" = (200 * (2:ℚ)) / (15:ℚ) :=
    fuzzScore_eval _ _ 2 15 (by decide) (by decide) (by decide)
  simp only [get_match, extractOne, h1, h2]
  norm_num

lemma score_katmandu_ge_80 : (80:ℚ) ≤ fuzzScore "Katmandu" "Kathmandu" := by
  have h1 : fuzzScore "Katmandu" "Kathmandu" = (200 * (8:ℚ)) / (17:ℚ) :=
    fuzzScore_eval _ _ 8 17 (by decide) (by decide) (by decide)
  rw [h1]
  norm_num

lemma c1_joined :
    layerJoined ["Kathmandu", "Pokhara"] true c1Layer =
      [("Kathmandu", ⟨"Kathmandu", "120"⟩), ("Kathmandu", ⟨"Katmandu", "95"⟩)] := by
  have h1 : get_match ["Kathmandu", "Pokhara"] "Kathmandu" = some "Kathmandu" :=
    get_match_self_mem _ _ (by decide)
  have h2 := get_match_katmandu
  simp only [layerJoined, innerJoin, matchKey, c1Layer]
  simp [h1, h2, List.filter]

/-- Claim C1 counterexample: in the spec scenario the composed hover
text for the district Kathmandu contains neither the lettered entry
for 120 nor the one for 95; in particular the characters of the typo
row value 95 occur nowhere in the hover text, refuting the claimed
lettered two-entry list. -/
theorem claim_C1_counterexample :
    hoverContainsSub "Kathmandu" true [c1Layer] "a. 120" = false ∧
    hoverContainsSub "Kathmandu" true [c1Layer] "b. 95" = false ∧
    hoverContainsSub "Kathmandu" true [c1Layer] "95" = false := by
  refine ⟨by decide, by decide, by decide⟩

/-- Claim C1 as amended: with fuzzy matching available both rows match
Kathmandu for the drawing join (the typo row through a correction
scoring at least 80), the joined layer is classified numeric, but the
hover composition selects rows by exact Location equality, so the
composed hover text for Kathmandu shows only the exact row, formatted
with two decimals, and not a lettered list. -/
theorem claim_C1_amended_join_fuzzy_hover_exact :
    get_match ["Kathmandu", "Pokhara"] "Kathmandu" = some "Kathmandu" ∧
    get_match ["Kathmandu", "Pokhara"] "Katmandu" = some "Kathmandu" ∧
    (80:ℚ) ≤ fuzzScore "Katmandu" "Kathmandu" ∧
    layerJoined ["Kathmandu", "Pokhara"] true c1Layer =
      [("Kathmandu", ⟨"Kathmandu", "120"⟩), ("Kathmandu", ⟨"Katmandu", "95"⟩)] ∧
    renderIsNumeric ["Kathmandu", "Pokhara"] true c1Layer = true ∧
    hoverText "Kathmandu" true [c1Layer] =
      .ok "<b>District:</b> Kathmandu<br><b>Population:</b> 120.00" := by
  refine ⟨get_match_self_mem _ _ (by decide), get_match_katmandu, score_katmandu_ge_80,
    c1_joined, ?_, by decide⟩
  rw [renderIsNumeric, c1_joined]
  decide

/-! ## Claim C4 -/

/-- Claim C4 counterexample: a layer whose rows matching Kathmandu sit
at positions 1 and 2 of the uploaded file renders its hover sub-list
with the letters b and c, and no entry lettered a exists, refuting the
claim that the first listed row is always labelled a. -/
theorem claim_C4_counterexample :
    hoverParts "Kathmandu" false [c4Layer] = .ok ["<b>V:</b>", "  b. 1", "  c. 2"] ∧
    hoverContainsSub "Kathmandu" false [c4Layer] "a. 1" = false ∧
    hoverContainsSub "Kathmandu" false [c4Layer] "a." = false := by
  refine ⟨by decide, by decide, by decide⟩

/-- Claim C4 as amended: in a multi-row hover sub-list the letter of an
entry is the character at code point 97 plus the row position in the
uploaded file, not the rank inside the sub-list, so the letters start
at a only when the matching rows are the first rows of the file; a
single matching numeric value is shown with two-decimal grouped
formatting and a single non-numeric value is shown raw. -/
theorem claim_C4_amended_letters_by_file_position (d : String) (fi : FileInfo)
    (htip : fi.tooltipVisible = true) (hcol : "Location" ∈ fi.cols) :
    (1 < (itemsInDistrict d fi).length →
      layerHoverItems d fi =
        .ok (("<b>" ++ fi.tooltipLabel ++ ":</b>") :: (itemsInDistrict d fi).map letterItem) ∧
      ∀ p ∈ itemsInDistrict d fi,
        ("  " ++ (Char.ofNat (97 + p.1)).toString ++ ". " ++ p.2.value) ∈
          ("<b>" ++ fi.tooltipLabel ++ ":</b>") :: (itemsInDistrict d fi).map letterItem) ∧
    (∀ i r q, itemsInDistrict d fi = [(i, r)] → parseNumber r.value = some q →
      layerHoverItems d fi =
        .ok ["<b>" ++ fi.tooltipLabel ++ ":</b> " ++ formatTwoDecimals q]) ∧
    (∀ i r, itemsInDistrict d fi = [(i, r)] → parseNumber r.value = none →
      layerHoverItems d fi = .ok ["<b>" ++ fi.tooltipLabel ++ ":</b> " ++ r.value]) := by
  refine ⟨?_, ?_, ?_⟩
  · intro hlen
    rcases hitems : itemsInDistrict d fi with _ | ⟨a, _ | ⟨b, rest⟩⟩
    · rw [hitems] at hlen; simp at hlen
    · rw [hitems] at hlen; simp at hlen
    · constructor
      · rw [layerHoverItems, htip, if_pos rfl, if_pos hcol, hitems]
      · intro p hp
        exact List.mem_cons_of_mem _ (List.mem_map.mpr ⟨p, hp, rfl⟩)
  · intro i r q hitems hq
    rw [layerHoverItems, htip, if_pos rfl, if_pos hcol, hitems]
    dsimp only
    rw [hq]
  · intro i r hitems hq
    rw [layerHoverItems, htip, if_pos rfl, if_pos hcol, hitems]
    dsimp only
    rw [hq]

/-- Witness for the amended claim C4, at the district Kathmandu of the
layer whose matching rows sit at file positions 1 and 2. -/
theorem claim_C4_amended_witness :
    ((c4Layer.tooltipVisible = true) ∧ ("Location" ∈ c4Layer.cols)) ∧
    ((1 < (itemsInDistrict "Kathmandu" c4Layer).length →
      layerHoverItems "Kathmandu" c4Layer =
        .ok (("<b>" ++ c4Layer.tooltipLabel ++ ":</b>") ::
          (itemsInDistrict "Kathmandu" c4Layer).map letterItem) ∧
      ∀ p ∈ itemsInDistrict "Kathmandu" c4Layer,
        ("  " ++ (Char.ofNat (97 + p.1)).toString ++ ". " ++ p.2.value) ∈
          ("<b>" ++ c4Layer.tooltipLabel ++ ":</b>") ::
            (itemsInDistrict "Kathmandu" c4Layer).map letterItem) ∧
    (∀ i r q, itemsInDistrict "Kathmandu" c4Layer = [(i, r)] →
      parseNumber r.value = some q →
      layerHoverItems "Kathmandu" c4Layer =
        .ok ["<b>" ++ c4Layer.tooltipLabel ++ ":</b> " ++ formatTwoDecimals q]) ∧
    (∀ i r, itemsInDistrict "Kathmandu" c4Layer = [(i, r)] →
      parseNumber r.value = none →
      layerHoverItems "Kathmandu" c4Layer =
        .ok ["<b>" ++ c4Layer.tooltipLabel ++ ":</b> " ++ r.value])) :=
  ⟨⟨rfl, by decide⟩,
   claim_C4_amended_letters_by_file_position "Kathmandu" c4Layer rfl (by decide)⟩
